import Mathlib

/-!
Shallow embedding of the notification-lifecycle core of the `runst`
notification daemon (files `src/notification.rs`, `src/lib.rs`,
`src/zbus_notify.rs`), together with theorems settling the spec claims.

The `Manager` of `notification.rs` holds `Arc<RwLock<Vec<Notification>>>`;
every operation acquires the lock, acts on the vector, and releases it.
We embed the store as `List Notification` (index 0 = oldest = front of the
`Vec`; `Vec::push` appends at the end) and each operation as a pure
function on that list.  Operations that can panic (out-of-bounds vector
indexing) return `Option`, with `none` modelling the panic.
-/

namespace Runst

/-- Urgency levels (`notification.rs`, enum `Urgency`). -/
inductive Urgency where
  | Low : Urgency
  | Normal : Urgency
  | Critical : Urgency
deriving Repr, DecidableEq

/-- `impl From<u64> for Urgency` (`notification.rs` lines 23-32):
`0 => Low, 1 => Normal, 2 => Critical, _ => default (Normal)`. -/
def Urgency.fromU64 (value : Nat) : Urgency :=
  match value with
  | 0 => Urgency.Low
  | 1 => Urgency.Normal
  | 2 => Urgency.Critical
  | _ => Urgency.Normal

/-- A notification (`notification.rs`, struct `Notification`).
`id` is a `u32` in the source, embedded as `Nat`; `expire_timeout` is an
optional duration, embedded as optional milliseconds. -/
structure Notification where
  id : Nat
  app_name : String
  summary : String
  body : String
  expire_timeout : Option Nat
  urgency : Urgency
  is_read : Bool
  timestamp : Nat
deriving Repr, DecidableEq

/-- The cross-thread message type (`notification.rs`, enum `Action`). -/
inductive Action where
  | Show : Notification → Action
  | ShowLast : Action
  | Close : Option Nat → Action
  | CloseAll : Action
deriving Repr, DecidableEq

namespace Manager

/-- `Manager::init`: the store starts empty. -/
def init : List Notification := []

/-- `Manager::count` (`notification.rs` lines 189-194): length of the vector. -/
def count (l : List Notification) : Nat :=
  l.length

/-- `Manager::add` (`notification.rs` lines 197-202): `Vec::push`, i.e.
append at the end, unconditionally. -/
def add (l : List Notification) (notification : Notification) : List Notification :=
  l ++ [notification]

/-- `Manager::get_unread_count` (`notification.rs` lines 273-276):
`iter().filter(|v| !v.is_read).count()`. -/
def get_unread_count (l : List Notification) : Nat :=
  (l.filter (fun v => !v.is_read)).length

/-- `Manager::get_last_unread` (`notification.rs` lines 205-212): filter the
unread entries, then index the filtered vector at `len - 1`.  Indexing an
empty vector panics in the source; the panic is modelled by `none`
(`usize` subtraction `0 - 1` itself panics in debug builds, and the
wrapped index is out of bounds in release builds, so every execution with
no unread entry panics). -/
def get_last_unread (l : List Notification) : Option Notification :=
  let unread := l.filter (fun v => !v.is_read)
  unread.get? (unread.length - 1)

/-- `Manager::mark_as_read` (`notification.rs` lines 250-261):
`iter_mut().find(|n| n.id == id)` locates the first (oldest) entry with the
given id and sets its `is_read`; no entry found is a silent no-op. -/
def mark_as_read (l : List Notification) (id : Nat) : List Notification :=
  match l with
  | [] => []
  | n :: rest =>
    if n.id = id then { n with is_read := true } :: rest
    else n :: mark_as_read rest id

/-- `Manager::mark_last_as_read` (`notification.rs` lines 215-223):
`iter_mut().filter(|v| !v.is_read).last()` is the most-recently-added
unread entry; set its `is_read`, no-op when every entry is read. -/
def mark_last_as_read (l : List Notification) : List Notification :=
  match l with
  | [] => []
  | n :: rest =>
    if rest.any (fun v => !v.is_read) then n :: mark_last_as_read rest
    else if !n.is_read then { n with is_read := true } :: rest
    else n :: rest

/-- `Manager::mark_all_as_read` (`notification.rs` lines 264-270):
`iter_mut().for_each(|v| v.is_read = true)`. -/
def mark_all_as_read (l : List Notification) : List Notification :=
  l.map (fun v => { v with is_read := true })

/-- `Manager::is_unread` (`notification.rs` lines 279-286):
`find(|n| n.id == id).map(|v| !v.is_read).unwrap_or_default()` — the read
state of the first (oldest) entry with the given id, `false` when absent. -/
def is_unread (l : List Notification) (id : Nat) : Bool :=
  match l with
  | [] => false
  | n :: rest =>
    if n.id = id then !n.is_read
    else is_unread rest id

/-- `iter_mut().position(|v| !v.is_read)` used by `mark_next_as_unread`
(`notification.rs` line 233): index of the first unread entry. -/
def firstUnreadIdx (l : List Notification) : Option Nat :=
  match l with
  | [] => none
  | n :: rest =>
    if !n.is_read then some 0
    else (firstUnreadIdx rest).map (· + 1)

/-- In-place `notifications[i].is_read = b` on the vector: replace the
entry at index `i` (all the source's uses are in bounds except the one
modelled separately in `mark_next_as_unread`). -/
def setRead (l : List Notification) (i : Nat) (b : Bool) : List Notification :=
  match l, i with
  | [], _ => []
  | n :: rest, 0 => { n with is_read := b } :: rest
  | n :: rest, Nat.succ j => n :: setRead rest j b

/-- `Manager::mark_next_as_unread` (`notification.rs` lines 228-247).
When no entry is unread the source runs `notifications[len - 1].is_read =
false`, which panics when the vector is empty (modelled by `none`);
otherwise it marks the first unread entry read and, when that entry has a
predecessor, marks the predecessor unread and returns `true`, else
returns `false`.  The result pairs the new store with the returned bool. -/
def mark_next_as_unread (l : List Notification) : Option (List Notification × Bool) :=
  match firstUnreadIdx l with
  | none =>
    match l.length with
    | 0 => none
    | Nat.succ k => some (setRead l k false, true)
  | some index =>
    let l1 := setRead l index true
    if index > 0 then some (setRead l1 (index - 1) false, true)
    else some (l1, false)

end Manager

/-- The two display side effects the dispatch loop issues
(`x11.rs` `hide_window` / `show_window`, as called from `lib.rs`). -/
inductive DisplayCall where
  | hide_window : DisplayCall
  | show_window : DisplayCall
deriving Repr, DecidableEq

/-- The expiry-timer body (`lib.rs` lines 179-186): after sleeping for the
timeout, check `is_unread(id)`; if still unread send `Close(Some(id))`,
otherwise send nothing. -/
def expiryCheck (l : List Notification) (id : Nat) : Option Action :=
  if Manager.is_unread l id then some (Action.Close (some id)) else none

/-- The `Action::Close` arm of the dispatch loop (`lib.rs` lines 203-215):
mark the given id read (`mark_as_read`) or the last unread entry read
(`mark_last_as_read`), hide the window, then show it again only when the
unread count is still at least 1.  Returns the new store and the display
calls in order. -/
def dispatchClose (l : List Notification) (id : Option Nat) :
    List Notification × List DisplayCall :=
  let l1 :=
    match id with
    | some i => Manager.mark_as_read l i
    | none => Manager.mark_last_as_read l
  (l1, DisplayCall.hide_window ::
    (if Manager.get_unread_count l1 ≥ 1 then [DisplayCall.show_window] else []))

/-- The `Action::ShowLast` arm of the dispatch loop (`lib.rs` lines
192-201): empty store is a no-op (`continue`); otherwise call
`mark_next_as_unread` and hide/show or hide according to its result.
`none` models a panic propagating out of `mark_next_as_unread`. -/
def dispatchShowLast (l : List Notification) :
    Option (List Notification × List DisplayCall) :=
  if Manager.count l = 0 then some (l, [])
  else
    match Manager.mark_next_as_unread l with
    | none => none
    | some (l1, true) => some (l1, [DisplayCall.hide_window, DisplayCall.show_window])
    | some (l1, false) => some (l1, [DisplayCall.hide_window])

/-- The id-allocation step of `Notifications::notify`
(`zbus_notify.rs` lines 48-54): a nonzero `replaces_id` is used verbatim;
otherwise the shared `u32` counter is incremented (arithmetic modulo
`2^32`) and its new value is the id.  Returns the assigned id and the new
counter value. -/
def notifyAssignId (next_id : Nat) (replaces_id : Nat) : Nat × Nat :=
  if replaces_id > 0 then (replaces_id, next_id)
  else ((next_id + 1) % 2 ^ 32, (next_id + 1) % 2 ^ 32)

/-- Ids produced by `n` successive `notify` calls that all pass
`replaces_id = 0`, starting from counter value `c`. -/
def autoIds (c : Nat) (n : Nat) : List Nat :=
  match n with
  | 0 => []
  | Nat.succ k =>
    let p := notifyAssignId c 0
    p.1 :: autoIds p.2 k

/-! ### Helper lemmas -/

theorem mark_as_read_idem (l : List Notification) (id : Nat) :
    Manager.mark_as_read (Manager.mark_as_read l id) id = Manager.mark_as_read l id := by
  induction l with
  | nil => rfl
  | cons n rest ih =>
    by_cases h : n.id = id
    · simp [Manager.mark_as_read, h]
    · simp [Manager.mark_as_read, h, ih]

theorem is_unread_mark_as_read (l : List Notification) (id : Nat) :
    Manager.is_unread (Manager.mark_as_read l id) id = false := by
  induction l with
  | nil => rfl
  | cons n rest ih =>
    by_cases h : n.id = id
    · simp [Manager.mark_as_read, Manager.is_unread, h]
    · simp [Manager.mark_as_read, Manager.is_unread, h, ih]

theorem mark_as_read_not_found (l : List Notification) (id : Nat)
    (h : ∀ n ∈ l, n.id ≠ id) : Manager.mark_as_read l id = l := by
  induction l with
  | nil => rfl
  | cons n rest ih =>
    have hn : n.id ≠ id := h n (List.mem_cons_self n rest)
    have hrest : ∀ m ∈ rest, m.id ≠ id := fun m hm => h m (List.mem_cons_of_mem n hm)
    simp [Manager.mark_as_read, hn, ih hrest]

theorem is_unread_not_found (l : List Notification) (id : Nat)
    (h : ∀ n ∈ l, n.id ≠ id) : Manager.is_unread l id = false := by
  induction l with
  | nil => rfl
  | cons n rest ih =>
    have hn : n.id ≠ id := h n (List.mem_cons_self n rest)
    have hrest : ∀ m ∈ rest, m.id ≠ id := fun m hm => h m (List.mem_cons_of_mem n hm)
    simp [Manager.is_unread, hn, ih hrest]

theorem mark_as_read_append_first (l₁ : List Notification) (n : Notification)
    (l₂ : List Notification) (h : ∀ m ∈ l₁, m.id ≠ n.id) :
    Manager.mark_as_read (l₁ ++ n :: l₂) n.id = l₁ ++ { n with is_read := true } :: l₂ := by
  induction l₁ with
  | nil => simp [Manager.mark_as_read]
  | cons m rest ih =>
    have hm : m.id ≠ n.id := h m (List.mem_cons_self m rest)
    have hrest : ∀ x ∈ rest, x.id ≠ n.id := fun x hx => h x (List.mem_cons_of_mem m hx)
    simp [Manager.mark_as_read, hm, ih hrest]

theorem is_unread_append_first (l₁ : List Notification) (n : Notification)
    (l₂ : List Notification) (h : ∀ m ∈ l₁, m.id ≠ n.id) :
    Manager.is_unread (l₁ ++ n :: l₂) n.id = !n.is_read := by
  induction l₁ with
  | nil => simp [Manager.is_unread]
  | cons m rest ih =>
    have hm : m.id ≠ n.id := h m (List.mem_cons_self m rest)
    have hrest : ∀ x ∈ rest, x.id ≠ n.id := fun x hx => h x (List.mem_cons_of_mem m hx)
    simp [Manager.is_unread, hm, ih hrest]

theorem firstUnreadIdx_all_read (l : List Notification)
    (h : ∀ x ∈ l, x.is_read = true) : Manager.firstUnreadIdx l = none := by
  induction l with
  | nil => rfl
  | cons n rest ih =>
    have hn : n.is_read = true := h n (List.mem_cons_self n rest)
    have hrest : ∀ x ∈ rest, x.is_read = true := fun x hx => h x (List.mem_cons_of_mem n hx)
    simp [Manager.firstUnreadIdx, hn, ih hrest]

theorem firstUnreadIdx_first (l₁ : List Notification) (n : Notification)
    (l₂ : List Notification) (h : ∀ x ∈ l₁, x.is_read = true) (hn : n.is_read = false) :
    Manager.firstUnreadIdx (l₁ ++ n :: l₂) = some l₁.length := by
  induction l₁ with
  | nil => simp [Manager.firstUnreadIdx, hn]
  | cons m rest ih =>
    have hm : m.is_read = true := h m (List.mem_cons_self m rest)
    have hrest : ∀ x ∈ rest, x.is_read = true := fun x hx => h x (List.mem_cons_of_mem m hx)
    simp [Manager.firstUnreadIdx, hm, ih hrest]

theorem setRead_append (l₁ : List Notification) (n : Notification)
    (l₂ : List Notification) (b : Bool) :
    Manager.setRead (l₁ ++ n :: l₂) l₁.length b = l₁ ++ { n with is_read := b } :: l₂ := by
  induction l₁ with
  | nil => rfl
  | cons m rest ih => simp [Manager.setRead, ih]

theorem filter_getLast?_eq_find?_reverse (l : List Notification) (p : Notification → Bool) :
    (l.filter p).getLast? = l.reverse.find? p := by
  induction l using List.reverseRecOn with
  | nil => rfl
  | append_singleton xs a ih =>
    by_cases h : p a
    · simp [List.filter_append, h, List.getLast?_concat]
    · simp [List.filter_append, h, ih]

theorem mark_next_as_unread_isSome (l : List Notification) (h : l ≠ []) :
    (Manager.mark_next_as_unread l).isSome = true := by
  cases l with
  | nil => exact absurd rfl h
  | cons n rest =>
    cases hf : Manager.firstUnreadIdx (n :: rest) with
    | none => simp [Manager.mark_next_as_unread, hf]
    | some i => by_cases hi : i > 0 <;> simp [Manager.mark_next_as_unread, hf, hi]

theorem autoIds_eq_range' (n : Nat) : ∀ c : Nat, c + n < 2 ^ 32 →
    autoIds c n = List.range' (c + 1) n := by
  induction n with
  | zero => intro c _; rfl
  | succ k ih =>
    intro c h
    have hlt : c + 1 < 2 ^ 32 := by omega
    have hstep : notifyAssignId c 0 = (c + 1, c + 1) := by
      simp [notifyAssignId, Nat.mod_eq_of_lt hlt]
      omega
    have hunfold : autoIds c (k + 1) =
        (notifyAssignId c 0).1 :: autoIds (notifyAssignId c 0).2 k := rfl
    rw [hunfold, hstep, ih (c + 1) (by omega), List.range'_succ]

theorem count_foldl_add (ns : List Notification) : ∀ l : List Notification,
    Manager.count (ns.foldl Manager.add l) = Manager.count l + ns.length := by
  induction ns with
  | nil => intro l; simp
  | cons n rest ih =>
    intro l
    rw [List.foldl_cons, ih (Manager.add l n)]
    simp [Manager.count, Manager.add]
    omega

/-! ### Concrete notifications used for evaluating the operations -/

/-- A concrete unread notification with id 1. -/
def sampleUnread1 : Notification :=
  ⟨1, "app", "A", "body", none, Urgency.Normal, false, 0⟩

/-- A concrete read notification with id 2. -/
def sampleRead2 : Notification :=
  ⟨2, "app", "B", "body", none, Urgency.Normal, true, 1⟩

/-- A concrete read notification with id 3. -/
def sampleRead3 : Notification :=
  ⟨3, "app", "C", "body", none, Urgency.Critical, true, 2⟩

/-- A second concrete notification that also carries id 1. -/
def sampleDup1 : Notification :=
  ⟨1, "app", "A2", "other", some 200, Urgency.Low, false, 3⟩

/-! ### Claim theorems -/

/-- C1: on a non-empty store, `mark_next_as_unread` scans from oldest to
newest; with no unread entry it marks the most-recently-added entry unread
and returns `true`; with the first unread entry preceded by at least one
(read) entry it marks that entry read, its predecessor unread, and returns
`true`; with the first unread entry at position 0 it marks it read, marks
nothing new unread, and returns `false`.  The three conjuncts cover every
non-empty store. -/
theorem c1_mark_next_as_unread_spec :
    (∀ (l₃ : List Notification) (p : Notification),
        (∀ x ∈ l₃ ++ [p], x.is_read = true) →
        Manager.mark_next_as_unread (l₃ ++ [p]) =
          some (l₃ ++ [{ p with is_read := false }], true))
    ∧ (∀ (l₁ : List Notification) (m n : Notification) (l₂ : List Notification),
        (∀ x ∈ l₁, x.is_read = true) → m.is_read = true → n.is_read = false →
        Manager.mark_next_as_unread (l₁ ++ m :: n :: l₂) =
          some (l₁ ++ { m with is_read := false } :: { n with is_read := true } :: l₂,
            true))
    ∧ (∀ (n : Notification) (l₂ : List Notification),
        n.is_read = false →
        Manager.mark_next_as_unread (n :: l₂) =
          some ({ n with is_read := true } :: l₂, false)) := by
  refine ⟨?_, ?_, ?_⟩
  · intro l₃ p hall
    have hidx : Manager.firstUnreadIdx (l₃ ++ [p]) = none := firstUnreadIdx_all_read _ hall
    have hs := setRead_append l₃ p [] false
    unfold Manager.mark_next_as_unread
    rw [hidx]
    simp [List.length_append, hs]
  · intro l₁ m n l₂ h1 hm hn
    have hall : ∀ x ∈ l₁ ++ [m], x.is_read = true := by
      intro x hx
      rcases List.mem_append.mp hx with h | h
      · exact h1 x h
      · rw [List.mem_singleton.mp h]; exact hm
    have hidx := firstUnreadIdx_first (l₁ ++ [m]) n l₂ hall hn
    simp only [List.append_assoc, List.singleton_append, List.length_append,
      List.length_singleton] at hidx
    have hs1 := setRead_append (l₁ ++ [m]) n l₂ true
    simp only [List.append_assoc, List.singleton_append, List.length_append,
      List.length_singleton] at hs1
    have hs2 := setRead_append l₁ m ({ n with is_read := true } :: l₂) false
    unfold Manager.mark_next_as_unread
    rw [hidx]
    simp [hs1, hs2]
  · intro n l₂ hn
    have hidx : Manager.firstUnreadIdx (n :: l₂) = some 0 := by
      simp [Manager.firstUnreadIdx, hn]
    unfold Manager.mark_next_as_unread
    rw [hidx]
    simp [Manager.setRead]

/-- Witness for C1: the spec's navigation scenario — only the oldest entry
(id 1) is unread, so `mark_next_as_unread` marks it read and returns
`false`, leaving every entry read. -/
theorem c1_witness :
    Manager.mark_next_as_unread [sampleUnread1, sampleRead2, sampleRead3] =
      some ([{ sampleUnread1 with is_read := true }, sampleRead2, sampleRead3], false) :=
  c1_mark_next_as_unread_spec.2.2 sampleUnread1 [sampleRead2, sampleRead3] rfl

/-- C2 counterexample: inserting a second notification with id 1 does not
replace the first — the store then holds two entries with id 1 (and size
2), so "at most one Notification per id" fails at this concrete input. -/
theorem c2_counterexample :
    ¬ (((Manager.add (Manager.add Manager.init sampleUnread1) sampleDup1).filter
          (fun v => v.id == sampleUnread1.id)).length ≤ 1
        ∧ Manager.count (Manager.add (Manager.add Manager.init sampleUnread1) sampleDup1)
            = 1) := by
  decide

/-- C2 (amended): `add` appends unconditionally and never replaces: it
always grows the store by one entry, and the number of entries carrying
the inserted id always grows by one — even when an entry with that id
already exists, so the at-most-one-entry-per-id invariant is not
maintained. -/
theorem c2_add_appends_never_replaces (l : List Notification) (n : Notification) :
    Manager.count (Manager.add l n) = Manager.count l + 1
    ∧ ((Manager.add l n).filter (fun v => v.id == n.id)).length
        = (l.filter (fun v => v.id == n.id)).length + 1 := by
  constructor
  · simp [Manager.count, Manager.add]
  · simp [Manager.add, List.filter_append]

/-- C3: once a notification has been marked read (e.g. by an earlier
`Close`), the expiry timer's check sees `is_unread = false` and emits no
further close action — the timer never produces a second close. -/
theorem c3_expiry_timer_no_second_close (l : List Notification) (id : Nat) :
    Manager.is_unread (Manager.mark_as_read l id) id = false
    ∧ expiryCheck (Manager.mark_as_read l id) id = none := by
  have h := is_unread_mark_as_read l id
  exact ⟨h, by simp [expiryCheck, h]⟩

/-- C4: `notify` with `replaces_id = 0` allocates from the monotonic
counter, so `n` successive auto-allocating calls starting from a fresh
adapter yield exactly the ids `1, …, n` in arrival order; a nonzero
`replaces_id` is used verbatim; and `n` `Show` insertions from an empty
store leave `count = n`. -/
theorem c4_notify_id_allocation :
    (∀ n : Nat, n < 2 ^ 32 → autoIds 0 n = List.range' 1 n)
    ∧ (∀ c replaces_id : Nat, 0 < replaces_id →
        (notifyAssignId c replaces_id).1 = replaces_id)
    ∧ (∀ ns : List Notification,
        Manager.count (ns.foldl Manager.add Manager.init) = ns.length) := by
  refine ⟨?_, ?_, ?_⟩
  · intro n hn
    have h := autoIds_eq_range' n 0 (by omega)
    simpa using h
  · intro c r hr
    simp [notifyAssignId, hr]
  · intro ns
    have h := count_foldl_add ns Manager.init
    simpa [Manager.init, Manager.count] using h

/-- Witness for C4: three auto-allocating calls yield ids 1, 2, 3, and a
call with `replaces_id = 42` is assigned id 42. -/
theorem c4_witness :
    autoIds 0 3 = List.range' 1 3 ∧ (notifyAssignId 7 42).1 = 42 :=
  ⟨c4_notify_id_allocation.1 3 (by norm_num),
    c4_notify_id_allocation.2.1 7 42 (by norm_num)⟩

/-- C5: the `Close(Some(id))` arm marks `id` read, first hides the
display, and re-shows it exactly when the unread count after marking is at
least 1. -/
theorem c5_dispatch_close_some (l : List Notification) (id : Nat) :
    (dispatchClose l (some id)).1 = Manager.mark_as_read l id
    ∧ (dispatchClose l (some id)).2.head? = some DisplayCall.hide_window
    ∧ (DisplayCall.show_window ∈ (dispatchClose l (some id)).2 ↔
        1 ≤ Manager.get_unread_count (Manager.mark_as_read l id)) := by
  refine ⟨rfl, rfl, ?_⟩
  by_cases h : Manager.get_unread_count (Manager.mark_as_read l id) ≥ 1
  · simp [dispatchClose, h]
  · simp [dispatchClose, h]

/-- C6: with at least one unread entry, `get_last_unread` returns the
most-recently-added unread entry (the first unread entry scanning from the
newest end); with zero unread entries it panics, modelled by `none` — and
it panics exactly then. -/
theorem c6_get_last_unread_spec (l : List Notification) :
    Manager.get_last_unread l = l.reverse.find? (fun v => !v.is_read)
    ∧ (Manager.get_last_unread l = none ↔ Manager.get_unread_count l = 0) := by
  have h1 : Manager.get_last_unread l = (l.filter (fun v => !v.is_read)).getLast? := by
    unfold Manager.get_last_unread
    rw [List.get?_eq_getElem?, ← List.getLast?_eq_getElem?]
  constructor
  · rw [h1, filter_getLast?_eq_find?_reverse]
  · rw [h1, List.getLast?_eq_none_iff]
    simp [Manager.get_unread_count, List.length_eq_zero]

/-- C7: for an id carried by no entry of the store, `is_unread` returns
`false` and `mark_as_read` leaves the store unchanged — unknown ids are
silent no-ops. -/
theorem c7_unknown_id_noop (l : List Notification) (id : Nat)
    (h : ∀ n ∈ l, n.id ≠ id) :
    Manager.is_unread l id = false ∧ Manager.mark_as_read l id = l :=
  ⟨is_unread_not_found l id h, mark_as_read_not_found l id h⟩

/-- Witness for C7: id 5 is absent from a concrete two-entry store. -/
theorem c7_witness :
    Manager.is_unread [sampleUnread1, sampleRead2] 5 = false
    ∧ Manager.mark_as_read [sampleUnread1, sampleRead2] 5
        = [sampleUnread1, sampleRead2] :=
  c7_unknown_id_noop [sampleUnread1, sampleRead2] 5 (by decide)

/-- C8: `mark_as_read` is idempotent — applying it twice yields the same
`get_unread_count` as applying it once (indeed the same store). -/
theorem c8_mark_as_read_idempotent (l : List Notification) (id : Nat) :
    Manager.get_unread_count (Manager.mark_as_read (Manager.mark_as_read l id) id)
      = Manager.get_unread_count (Manager.mark_as_read l id) := by
  rw [mark_as_read_idem]

/-- C9: `mark_next_as_unread` on the empty store panics (`none`, from the
`len - 1` indexing in the all-read branch); on any store with `count ≥ 1`
it never panics; and the `ShowLast` dispatch arm never panics because it
returns early on an empty store before calling `mark_next_as_unread`. -/
theorem c9_empty_store_navigation :
    Manager.mark_next_as_unread ([] : List Notification) = none
    ∧ (∀ l : List Notification, 1 ≤ Manager.count l →
        (Manager.mark_next_as_unread l).isSome = true)
    ∧ (∀ l : List Notification, (dispatchShowLast l).isSome = true) := by
  refine ⟨rfl, ?_, ?_⟩
  · intro l hl
    apply mark_next_as_unread_isSome
    intro hnil
    rw [hnil] at hl
    simp [Manager.count] at hl
  · intro l
    by_cases hc : Manager.count l = 0
    · simp [dispatchShowLast, hc]
    · have hne : l ≠ [] := by
        intro hnil
        rw [hnil] at hc
        exact hc rfl
      have hs := mark_next_as_unread_isSome l hne
      unfold dispatchShowLast
      rw [if_neg hc]
      cases hm : Manager.mark_next_as_unread l with
      | none => rw [hm] at hs; simp at hs
      | some p =>
        cases p with
        | mk l1 b => cases b <;> simp

/-- Witness for C9: a singleton store satisfies `1 ≤ count` and neither
`mark_next_as_unread` nor the `ShowLast` arm panics on it. -/
theorem c9_witness :
    (Manager.mark_next_as_unread [sampleRead2]).isSome = true
    ∧ (dispatchShowLast [sampleRead2]).isSome = true :=
  ⟨c9_empty_store_navigation.2.1 [sampleRead2] (by decide),
    c9_empty_store_navigation.2.2 [sampleRead2]⟩

/-- C10: when several entries share an id, `mark_as_read` marks only the
oldest (first-inserted) matching entry and `is_unread` reports the read
state of that oldest matching entry; later same-id entries (the arbitrary
suffix `l₂`) are ignored and untouched. -/
theorem c10_duplicate_ids_oldest_wins (l₁ : List Notification) (n : Notification)
    (l₂ : List Notification) (h : ∀ m ∈ l₁, m.id ≠ n.id) :
    Manager.mark_as_read (l₁ ++ n :: l₂) n.id = l₁ ++ { n with is_read := true } :: l₂
    ∧ Manager.is_unread (l₁ ++ n :: l₂) n.id = !n.is_read :=
  ⟨mark_as_read_append_first l₁ n l₂ h, is_unread_append_first l₁ n l₂ h⟩

/-- Witness for C10: a store holding two entries with id 1; only the older
one is marked read, the newer duplicate is untouched, and `is_unread`
reports the older one's state. -/
theorem c10_witness :
    Manager.mark_as_read [sampleUnread1, sampleDup1] sampleUnread1.id
        = [{ sampleUnread1 with is_read := true }, sampleDup1]
    ∧ Manager.is_unread [sampleUnread1, sampleDup1] sampleUnread1.id
        = !sampleUnread1.is_read :=
  c10_duplicate_ids_oldest_wins [] sampleUnread1 [sampleDup1] (by simp)

end Runst
